import Mathlib

/-!
Verification of the Foodgram backend core (recipe aggregate write/read
model, relation toggles, shopping-list aggregation) against a shallow
embedding of the Python source under `backend/`.

The relational store is embedded as lists of rows; Django/DRF behaviours
visible in the source (serializer validation before `save`, the
`transaction.atomic` all-or-nothing commit, `QuerySet.filter(...).delete()`
returning a deletion count, the grouped-sum `values(...).annotate(Sum)`
query) are translated into explicit Lean functions over that state.
-/

namespace Foodgram

/-- Row of the `Ingredient` table (`recipes/models.py`): name and
measurement unit, with a numeric primary key. -/
structure Ingredient where
  id : Nat
  name : String
  measurement_unit : String
  deriving DecidableEq, Repr

/-- Row of the `Recipe` table (`recipes/models.py`): scalar fields only;
tag links and ingredient lines live in their own tables. -/
structure Recipe where
  id : Nat
  author : Nat
  name : String
  text : String
  cooking_time : Int
  deriving DecidableEq, Repr

/-- Row of the `RecipeIngredient` join table (`recipes/models.py`):
one recipe, one ingredient, one amount. -/
structure RecipeIngredientRow where
  recipe : Nat
  ingredient : Nat
  amount : Int
  deriving DecidableEq, Repr

/-- The persisted state: one list of rows per table of the data model.
`favorites`, `shopping_cart` are (user, recipe) pairs; `subscriptions`
are (subscriber, author) pairs; `recipeTags` are (recipe, tag) pairs. -/
structure State where
  ingredients : List Ingredient
  recipes : List Recipe
  recipeTags : List (Nat × Nat)
  recipeIngredients : List RecipeIngredientRow
  favorites : List (Nat × Nat)
  shopping_cart : List (Nat × Nat)
  subscriptions : List (Nat × Nat)
  deriving DecidableEq, Repr

/-! ## Shopping list aggregation (`RecipeViewSet.download_shopping_cart`) -/

/-- The shopping-cart rows of the user: `user.shopping_cart` in the view. -/
def cartEntriesOf (u : Nat) (st : State) : List (Nat × Nat) :=
  st.shopping_cart.filter (fun p => p.1 == u)

/-- `Ingredient.objects.get(pk=iid)` resolution used by the SQL join:
first row of the ingredient table with the given primary key. -/
def lookupIngredient (st : State) (iid : Nat) : Option Ingredient :=
  st.ingredients.find? (fun i => i.id == iid)

/-- The joined row set of
`RecipeIngredient.objects.filter(recipe__shopping_cart__user=user)
 .values(ingredient__name, ingredient__measurement_unit)` together
with the `amount` of each row: for every RecipeIngredient row whose recipe
is in the cart of the user, the pair ((name, measurement unit), amount). -/
def cartIngredientRows (u : Nat) (st : State) : List ((String × String) × Int) :=
  (st.recipeIngredients.filter
      (fun r => (cartEntriesOf u st).any (fun p => p.2 == r.recipe))).filterMap
    (fun r => (lookupIngredient st r.ingredient).map
      (fun i => ((i.name, i.measurement_unit), r.amount)))

/-- One aggregation step of the SQL `GROUP BY ... SUM(amount)`: add the
amount of a row to the accumulator entry with the same key, or append a fresh entry.
Key comparison is plain equality of the string pair — exactly the SQL
grouping on the two string columns, no normalization. -/
def addRow (acc : List ((String × String) × Int)) (r : (String × String) × Int) :
    List ((String × String) × Int) :=
  match acc with
  | [] => [r]
  | a :: rest =>
      if a.1 = r.1 then (a.1, a.2 + r.2) :: rest else a :: addRow rest r

/-- `.annotate(amount=Sum(amount))` after `.values(name, unit)`: group the
joined rows by (name, unit) and sum the amounts. -/
def groupSum (rows : List ((String × String) × Int)) : List ((String × String) × Int) :=
  rows.foldl addRow []

/-- The error surfaced when a user with an empty cart asks for an export
(the view returns HTTP 400 before building anything; the spec names this
condition `EmptyCollection`). -/
inductive ExportError where
  | EmptyCollection
  deriving DecidableEq, Repr

/-- `download_shopping_cart`, computation part: fail on an empty cart,
otherwise the grouped sums over the cart ingredient rows of the user. -/
def computeShoppingList (u : Nat) (st : State) :
    Except ExportError (List ((String × String) × Int)) :=
  if cartEntriesOf u st = [] then .error .EmptyCollection
  else .ok (groupSum (cartIngredientRows u st))

/-- Sum of the amounts of all rows with a given key. -/
def sumFor (rows : List ((String × String) × Int)) (k : String × String) : Int :=
  ((rows.filter (fun r => decide (r.1 = k))).map (fun r => r.2)).sum

/-! ### Properties of the grouped sum -/

theorem sumFor_nil (k : String × String) : sumFor [] k = 0 := rfl

theorem sumFor_cons (a : (String × String) × Int) (l : List ((String × String) × Int))
    (k : String × String) :
    sumFor (a :: l) k = (if a.1 = k then a.2 else 0) + sumFor l k := by
  by_cases h : a.1 = k <;> simp [sumFor, h]

theorem sumFor_eq_zero_of_not_mem (l : List ((String × String) × Int))
    (k : String × String) (h : k ∉ l.map Prod.fst) : sumFor l k = 0 := by
  induction l with
  | nil => rfl
  | cons a rest ih =>
      simp only [List.map_cons, List.mem_cons] at h
      push_neg at h
      have hne : ¬ a.1 = k := fun he => h.1 he.symm
      rw [sumFor_cons, if_neg hne, ih h.2, add_zero]

theorem addRow_keys (acc : List ((String × String) × Int))
    (r : (String × String) × Int) :
    (addRow acc r).map Prod.fst =
      if r.1 ∈ acc.map Prod.fst then acc.map Prod.fst
      else acc.map Prod.fst ++ [r.1] := by
  induction acc with
  | nil => simp [addRow]
  | cons a rest ih =>
      by_cases h : a.1 = r.1
      · simp [addRow, h]
      · have hne : r.1 ≠ a.1 := fun hh => h hh.symm
        simp only [addRow, if_neg h, List.map_cons, List.mem_cons, ih]
        by_cases hm : r.1 ∈ rest.map Prod.fst
        · simp [hm]
        · simp [hm, hne]

theorem addRow_sumFor (acc : List ((String × String) × Int))
    (r : (String × String) × Int) (k : String × String) :
    sumFor (addRow acc r) k = sumFor acc k + (if r.1 = k then r.2 else 0) := by
  obtain ⟨rk, rv⟩ := r
  induction acc with
  | nil =>
      by_cases h : rk = k <;> simp [addRow, sumFor_cons, sumFor_nil, h]
  | cons a rest ih =>
      obtain ⟨ak, av⟩ := a
      by_cases h : ak = rk
      · subst h
        by_cases hk : ak = k
        · subst hk
          simp [addRow, sumFor_cons]
          ring
        · simp [addRow, sumFor_cons, hk]
      · by_cases hk : ak = k
        · have h2 : ¬ rk = k := fun he => h (hk.trans he.symm)
          have h3 : ¬ k = rk := fun he => h (hk.trans he)
          simp [addRow, sumFor_cons, h, hk, h2, h3, ih]
        · simp [addRow, sumFor_cons, h, hk, ih]

theorem addRow_keys_nodup (acc : List ((String × String) × Int))
    (r : (String × String) × Int) (h : (acc.map Prod.fst).Nodup) :
    ((addRow acc r).map Prod.fst).Nodup := by
  rw [addRow_keys]
  by_cases hm : r.1 ∈ acc.map Prod.fst
  · simpa [hm] using h
  · rw [if_neg hm]
    refine List.Nodup.append h (List.nodup_singleton r.1) ?_
    intro a ha hb
    rw [List.mem_singleton] at hb
    exact hm (hb ▸ ha)

theorem foldl_addRow_keys_nodup (rows acc : List ((String × String) × Int))
    (h : (acc.map Prod.fst).Nodup) :
    ((rows.foldl addRow acc).map Prod.fst).Nodup := by
  induction rows generalizing acc with
  | nil => simpa using h
  | cons r rest ih =>
      exact ih (addRow acc r) (addRow_keys_nodup acc r h)

theorem foldl_addRow_mem_keys (rows acc : List ((String × String) × Int))
    (k : String × String) :
    k ∈ (rows.foldl addRow acc).map Prod.fst ↔
      k ∈ acc.map Prod.fst ∨ k ∈ rows.map Prod.fst := by
  induction rows generalizing acc with
  | nil => simp
  | cons r rest ih =>
      rw [List.foldl_cons, ih (addRow acc r), addRow_keys]
      by_cases hm : r.1 ∈ acc.map Prod.fst
      · by_cases hk : k = r.1
        · simp [hm, hk ▸ hm, hk]
        · simp [hm, hk]
      · by_cases hk : k = r.1
        · simp [hm, hk]
        · simp [hm, hk]

theorem foldl_addRow_sumFor (rows acc : List ((String × String) × Int))
    (k : String × String) :
    sumFor (rows.foldl addRow acc) k = sumFor acc k + sumFor rows k := by
  induction rows generalizing acc with
  | nil => simp [sumFor_nil]
  | cons r rest ih =>
      rw [List.foldl_cons, ih (addRow acc r), addRow_sumFor, sumFor_cons]
      ring

theorem groupSum_keys_nodup (rows : List ((String × String) × Int)) :
    ((groupSum rows).map Prod.fst).Nodup :=
  foldl_addRow_keys_nodup rows [] (by simp)

theorem groupSum_mem_keys (rows : List ((String × String) × Int))
    (k : String × String) :
    k ∈ (groupSum rows).map Prod.fst ↔ k ∈ rows.map Prod.fst := by
  rw [groupSum, foldl_addRow_mem_keys]
  simp

theorem groupSum_sumFor (rows : List ((String × String) × Int))
    (k : String × String) : sumFor (groupSum rows) k = sumFor rows k := by
  rw [groupSum, foldl_addRow_sumFor, sumFor_nil, zero_add]

theorem sumFor_eq_snd_of_nodup (l : List ((String × String) × Int))
    (h : (l.map Prod.fst).Nodup) (it : (String × String) × Int) (hit : it ∈ l) :
    sumFor l it.1 = it.2 := by
  induction l with
  | nil => cases hit
  | cons a rest ih =>
      simp only [List.map_cons, List.nodup_cons] at h
      rcases List.mem_cons.1 hit with h1 | h1
      · subst h1
        rw [sumFor_cons, if_pos rfl,
          sumFor_eq_zero_of_not_mem rest it.1 h.1, add_zero]
      · have hne : a.1 ≠ it.1 := by
          intro he
          exact h.1 (he ▸ List.mem_map_of_mem Prod.fst h1)
        rw [sumFor_cons, if_neg hne, ih h.2 h1, zero_add]

theorem groupSum_item_amount (rows : List ((String × String) × Int))
    (it : (String × String) × Int) (hit : it ∈ groupSum rows) :
    it.2 = sumFor rows it.1 := by
  rw [← groupSum_sumFor]
  exact (sumFor_eq_snd_of_nodup (groupSum rows) (groupSum_keys_nodup rows) it hit).symm

/-! ### Concrete scenario from the spec: user 7 has R1 (Flour 200, Sugar 50)
and R2 (Flour 300) in the cart. -/

def scenarioState : State :=
  { ingredients := [⟨1, "Flour", "g"⟩, ⟨2, "Sugar", "g"⟩],
    recipes := [⟨1, 1, "R1", "", 10⟩, ⟨2, 1, "R2", "", 10⟩],
    recipeTags := [(1, 1), (2, 1)],
    recipeIngredients := [⟨1, 1, 200⟩, ⟨1, 2, 50⟩, ⟨2, 1, 300⟩],
    favorites := [],
    shopping_cart := [(7, 1), (7, 2)],
    subscriptions := [] }

/-- Same user-7 cart and the same ingredient lines as `scenarioState`, but
a cart entry of another user, a favorite and a subscription added: the
environment C10 requires the export not to depend on. -/
def scenarioStateB : State :=
  { scenarioState with
    favorites := [(3, 1)],
    subscriptions := [(3, 1)],
    shopping_cart := [(8, 2), (7, 1), (7, 2)] }

/-- Claim C1: an empty cart makes the export fail with `EmptyCollection`;
a non-empty cart yields exactly one line item per distinct
(ingredient name, measurement unit) key occurring among the RecipeIngredient
rows of the cart recipes, each carrying the exact sum of the amounts under
plain string-pair equality; on the spec scenario the result is set-equal
to Flour/g/500 and Sugar/g/50. -/
theorem C1_shopping_list_compute (u : Nat) (st : State) :
    (cartEntriesOf u st = [] → computeShoppingList u st = .error .EmptyCollection)
    ∧ (cartEntriesOf u st ≠ [] →
        ∃ items, computeShoppingList u st = .ok items
          ∧ (items.map Prod.fst).Nodup
          ∧ (∀ k, k ∈ items.map Prod.fst ↔ k ∈ (cartIngredientRows u st).map Prod.fst)
          ∧ (∀ it ∈ items, it.2 = sumFor (cartIngredientRows u st) it.1))
    ∧ (∃ items, computeShoppingList 7 scenarioState = .ok items
        ∧ items.Perm [(("Flour", "g"), 500), (("Sugar", "g"), 50)]) := by
  refine ⟨?_, ?_, ?_⟩
  · intro h
    simp [computeShoppingList, h]
  · intro h
    refine ⟨groupSum (cartIngredientRows u st), ?_, groupSum_keys_nodup _,
      fun k => groupSum_mem_keys _ k, fun it hit => groupSum_item_amount _ it hit⟩
    simp [computeShoppingList, h]
  · exact ⟨[(("Flour", "g"), 500), (("Sugar", "g"), 50)], rfl, by decide⟩

/-- Witness for C1 at concrete inputs: user 9 has an empty cart, user 7
has the scenario cart. -/
theorem C1_shopping_list_compute_witness :
    computeShoppingList 9 scenarioState = .error .EmptyCollection
    ∧ ∃ items, computeShoppingList 7 scenarioState = .ok items
        ∧ (items.map Prod.fst).Nodup
        ∧ (∀ k, k ∈ items.map Prod.fst ↔
            k ∈ (cartIngredientRows 7 scenarioState).map Prod.fst)
        ∧ (∀ it ∈ items, it.2 = sumFor (cartIngredientRows 7 scenarioState) it.1) :=
  ⟨(C1_shopping_list_compute 9 scenarioState).1 rfl,
   (C1_shopping_list_compute 7 scenarioState).2.1 (by decide)⟩

/-- Claim C10: the export reads nothing but the own cart rows of the user and
the joined ingredient rows of the recipes in it — two states agreeing on
those projections produce identical results, whatever the difference in
the carts, favorites and subscriptions of other users. -/
theorem C10_export_noninterference (u : Nat) (st1 st2 : State)
    (hcart : cartEntriesOf u st1 = cartEntriesOf u st2)
    (hrows : cartIngredientRows u st1 = cartIngredientRows u st2) :
    computeShoppingList u st1 = computeShoppingList u st2 := by
  simp [computeShoppingList, hcart, hrows]

/-- Witness for C10: `scenarioStateB` adds a cart entry of another user, a
favorite and a subscription, and the export of user 7 does not change. -/
theorem C10_export_noninterference_witness :
    scenarioState ≠ scenarioStateB
    ∧ computeShoppingList 7 scenarioState = computeShoppingList 7 scenarioStateB :=
  ⟨by decide,
   C10_export_noninterference 7 scenarioState scenarioStateB (by decide) (by decide)⟩

/-! ## Recipe aggregate writes (`RecipeWriteSerializer`) -/

/-- Input to `RecipeWriteSerializer`: the scalar fields, the tag primary
keys, and (ingredient primary key, amount) lines, as deserialized from
the request body. -/
structure RecipeInput where
  name : String
  text : String
  cooking_time : Int
  tags : List Nat
  ingredients : List (Nat × Int)
  deriving DecidableEq, Repr

/-- Boolean shape of the duplicate check in the source
(`len(lst) > len(set(lst))` fails): a list passes iff deduplication
loses nothing. -/
def noDupB {α : Type} [DecidableEq α] (l : List α) : Bool :=
  l.dedup.length == l.length

theorem noDupB_iff {α : Type} [DecidableEq α] (l : List α) :
    noDupB l = true ↔ l.Nodup := by
  constructor
  · intro h
    have hlen : l.dedup.length = l.length := by simpa [noDupB] using h
    have hd : l.dedup = l := (List.dedup_sublist l).eq_of_length hlen
    exact hd ▸ l.nodup_dedup
  · intro h
    simp [noDupB, List.dedup_eq_self.2 h]

/-- Modelled from the spec: `recipes/constants.py` is not among the
sources; the spec fixes the minimum cooking time at 1 ("cooking time
(bounded integer, minimum 1, maximum a configured ceiling)"). -/
def MIN_COOKING_TIME : Int := 1

/-- Modelled from the spec: `recipes/constants.py` is not among the
sources; the spec requires a "positive bounded quantity", so the minimum
ingredient amount is 1 (any amount ≤ 0 is rejected). -/
def MIN_INGREDIENT_AMOUNT : Int := 1

/-- `RecipeWriteSerializer.validate_tags`: non-empty and duplicate-free. -/
def validate_tags (tags : List Nat) : Bool :=
  !tags.isEmpty && noDupB tags

/-- `RecipeWriteSerializer.validate_ingredients`: non-empty and no
ingredient id listed twice. -/
def validate_ingredients (ings : List (Nat × Int)) : Bool :=
  !ings.isEmpty && noDupB (ings.map Prod.fst)

/-- The bound checks contributed by the model-field validators
(`MinValueValidator`/`MaxValueValidator` on `Recipe.cooking_time` and on
`RecipeIngredient.amount`), which the serializer runs during `is_valid`.
The maxima are the externally configured ceilings. -/
def validate_bounds (maxCooking maxAmount : Int) (inp : RecipeInput) : Bool :=
  (decide (MIN_COOKING_TIME ≤ inp.cooking_time)
      && decide (inp.cooking_time ≤ maxCooking))
    && inp.ingredients.all (fun p =>
      decide (MIN_INGREDIENT_AMOUNT ≤ p.2) && decide (p.2 ≤ maxAmount))

/-- The full `serializer.is_valid` outcome for a recipe write. -/
def validateRecipeInput (maxCooking maxAmount : Int) (inp : RecipeInput) : Bool :=
  validate_tags inp.tags && validate_ingredients inp.ingredients
    && validate_bounds maxCooking maxAmount inp

theorem validateRecipeInput_iff (maxCooking maxAmount : Int) (inp : RecipeInput) :
    validateRecipeInput maxCooking maxAmount inp = true ↔
      inp.tags ≠ [] ∧ inp.tags.Nodup ∧ inp.ingredients ≠ []
      ∧ (inp.ingredients.map Prod.fst).Nodup
      ∧ (∀ p ∈ inp.ingredients,
          MIN_INGREDIENT_AMOUNT ≤ p.2 ∧ p.2 ≤ maxAmount)
      ∧ MIN_COOKING_TIME ≤ inp.cooking_time ∧ inp.cooking_time ≤ maxCooking := by
  simp only [validateRecipeInput, validate_tags, validate_ingredients,
    validate_bounds, Bool.and_eq_true, Bool.not_eq_true', List.isEmpty_eq_false,
    noDupB_iff, List.all_eq_true, decide_eq_true_eq, ne_eq]
  tauto

/-- `RecipeWriteSerializer.create`: insert the recipe row, set its tag
links (`recipe.tags.set`, set semantics, so duplicate references
collapse), and bulk-insert one RecipeIngredient row per ingredient line
(`_add_ingredients`). -/
def createRecipe (st : State) (author rid : Nat) (inp : RecipeInput) : State :=
  { st with
    recipes := st.recipes ++ [⟨rid, author, inp.name, inp.text, inp.cooking_time⟩],
    recipeTags := st.recipeTags ++ inp.tags.dedup.map (fun t => (rid, t)),
    recipeIngredients :=
      st.recipeIngredients ++ inp.ingredients.map (fun p => ⟨rid, p.1, p.2⟩) }

/-- `RecipeWriteSerializer.update`: overwrite the scalar fields, replace
the whole tag link set (`instance.tags.set`), drop every existing
ingredient line of the recipe (`instance.ingredients.clear()`) and
bulk-insert the new lines (`_add_ingredients`). -/
def updateRecipe (st : State) (rid : Nat) (inp : RecipeInput) : State :=
  { st with
    recipes := st.recipes.map (fun r =>
      if r.id == rid then
        { r with name := inp.name, text := inp.text,
                 cooking_time := inp.cooking_time }
      else r),
    recipeTags :=
      st.recipeTags.filter (fun p => p.1 != rid)
        ++ inp.tags.dedup.map (fun t => (rid, t)),
    recipeIngredients :=
      st.recipeIngredients.filter (fun r => r.recipe != rid)
        ++ inp.ingredients.map (fun p => ⟨rid, p.1, p.2⟩) }

inductive TxResult where
  | ok
  | validationError
  | aborted
  deriving DecidableEq, Repr

/-- The view pipeline for recipe creation: `serializer.is_valid` runs in
full before `save`, and `create` runs under `transaction.atomic`, so the
three-table effect commits only when storage succeeds (`storageOk`); a
storage abort rolls everything back to the pre-transaction state. -/
def runCreate (maxCooking maxAmount : Int) (storageOk : Bool) (st : State)
    (author rid : Nat) (inp : RecipeInput) : TxResult × State :=
  if validateRecipeInput maxCooking maxAmount inp then
    if storageOk then (.ok, createRecipe st author rid inp) else (.aborted, st)
  else (.validationError, st)

/-- The view pipeline for recipe update, with the same validate-first,
commit-or-roll-back shape as `runCreate`. -/
def runUpdate (maxCooking maxAmount : Int) (storageOk : Bool) (st : State)
    (rid : Nat) (inp : RecipeInput) : TxResult × State :=
  if validateRecipeInput maxCooking maxAmount inp then
    if storageOk then (.ok, updateRecipe st rid inp) else (.aborted, st)
  else (.validationError, st)

/-- `RecipeReadSerializer` tag field: the tag ids linked to the recipe. -/
def readTagIds (st : State) (rid : Nat) : List Nat :=
  (st.recipeTags.filter (fun p => p.1 == rid)).map Prod.snd

/-- `RecipeReadSerializer` ingredient field
(`IngredientInRecipeReadSerializer`): (ingredient id, name, unit, amount)
for each RecipeIngredient row of the recipe. -/
def readIngredientLines (st : State) (rid : Nat) :
    List (Nat × String × String × Int) :=
  (st.recipeIngredients.filter (fun r => r.recipe == rid)).filterMap
    (fun r => (lookupIngredient st r.ingredient).map
      (fun i => (r.ingredient, i.name, i.measurement_unit, r.amount)))

/-! ### List helpers for the round-trip proofs -/

theorem filter_key_nil {α : Type} (key : α → Nat) (rid : Nat) (l : List α)
    (h : ∀ a ∈ l, key a ≠ rid) : l.filter (fun a => key a == rid) = [] := by
  induction l with
  | nil => rfl
  | cons a rest ih =>
      simp only [List.filter_cons]
      rw [if_neg (by simpa using h a (List.mem_cons_self a rest))]
      exact ih (fun b hb => h b (List.mem_cons_of_mem a hb))

theorem filter_key_map_self {α β : Type} (key : β → Nat) (f : α → β) (rid : Nat)
    (l : List α) (h : ∀ a, key (f a) = rid) :
    (l.map f).filter (fun b => key b == rid) = l.map f := by
  induction l with
  | nil => rfl
  | cons a rest ih => simp [List.filter_cons, h a, ih]

theorem filter_ne_key_map_nil {α β : Type} (key : β → Nat) (f : α → β) (rid : Nat)
    (l : List α) (h : ∀ a, key (f a) = rid) :
    (l.map f).filter (fun b => key b != rid) = [] := by
  induction l with
  | nil => rfl
  | cons a rest ih => simp [List.filter_cons, h a, ih]

theorem snd_filter_pair_map (rid : Nat) (l : List Nat) :
    ((l.map (fun t => (rid, t))).filter (fun p => p.1 == rid)).map Prod.snd = l := by
  induction l with
  | nil => rfl
  | cons t rest ih => simp [List.filter_cons, ih]

theorem readLines_of_fresh (st : State) (rid : Nat) (ings : List (Nat × Int))
    (hex : ∀ p ∈ ings, (lookupIngredient st p.1).isSome = true) :
    ∃ lines,
      (ings.map (fun p => RecipeIngredientRow.mk rid p.1 p.2)).filterMap
        (fun r => (lookupIngredient st r.ingredient).map
          (fun i => (r.ingredient, i.name, i.measurement_unit, r.amount)))
      = lines
      ∧ lines.map (fun l => (l.1, l.2.2.2)) = ings
      ∧ ∀ l ∈ lines, ∃ i, lookupIngredient st l.1 = some i
          ∧ l.2.1 = i.name ∧ l.2.2.1 = i.measurement_unit := by
  induction ings with
  | nil => exact ⟨[], rfl, rfl, by simp⟩
  | cons p rest ih =>
      obtain ⟨lines, hl, hproj, hmem⟩ :=
        ih (fun q hq => hex q (List.mem_cons_of_mem p hq))
      obtain ⟨i, hi⟩ :=
        Option.isSome_iff_exists.1 (hex p (List.mem_cons_self p rest))
      refine ⟨(p.1, i.name, i.measurement_unit, p.2) :: lines, ?_, ?_, ?_⟩
      · simp [List.filterMap_cons, hi, hl]
      · simp [hproj]
      · intro l hlm
        rcases List.mem_cons.1 hlm with rfl | hlm
        · exact ⟨i, hi, rfl, rfl⟩
        · exact hmem l hlm

/-- Claim C2: after a valid Create with N tag references and M ingredient
lines, reading the recipe back yields exactly those N tag identities and
exactly M ingredient lines whose id and amount match the input and whose
name and unit come from the referenced Ingredient rows. -/
theorem C2_create_read_roundtrip (maxCooking maxAmount : Int) (st : State)
    (author rid : Nat) (inp : RecipeInput)
    (hval : validateRecipeInput maxCooking maxAmount inp = true)
    (hfreshT : ∀ p ∈ st.recipeTags, p.1 ≠ rid)
    (hfreshI : ∀ r ∈ st.recipeIngredients, r.recipe ≠ rid)
    (hex : ∀ p ∈ inp.ingredients, (lookupIngredient st p.1).isSome = true) :
    readTagIds (createRecipe st author rid inp) rid = inp.tags
    ∧ (readTagIds (createRecipe st author rid inp) rid).length = inp.tags.length
    ∧ (readIngredientLines (createRecipe st author rid inp) rid).map
        (fun l => (l.1, l.2.2.2)) = inp.ingredients
    ∧ (readIngredientLines (createRecipe st author rid inp) rid).length
        = inp.ingredients.length
    ∧ ∀ l ∈ readIngredientLines (createRecipe st author rid inp) rid,
        ∃ i, lookupIngredient st l.1 = some i
          ∧ l.2.1 = i.name ∧ l.2.2.1 = i.measurement_unit := by
  have hnodup : inp.tags.Nodup :=
    ((validateRecipeInput_iff maxCooking maxAmount inp).1 hval).2.1
  have hded : inp.tags.dedup = inp.tags := List.dedup_eq_self.2 hnodup
  have h1 : st.recipeTags.filter (fun p => p.1 == rid) = [] :=
    filter_key_nil (fun p => p.1) rid st.recipeTags hfreshT
  have htags : readTagIds (createRecipe st author rid inp) rid = inp.tags := by
    simp [readTagIds, createRecipe, List.filter_append, h1, hded,
      snd_filter_pair_map]
  have h3 : st.recipeIngredients.filter (fun r => r.recipe == rid) = [] :=
    filter_key_nil (fun r => r.recipe) rid st.recipeIngredients hfreshI
  have h4 := filter_key_map_self (fun r : RecipeIngredientRow => r.recipe)
    (fun p : Nat × Int => RecipeIngredientRow.mk rid p.1 p.2) rid
    inp.ingredients (fun _ => rfl)
  obtain ⟨lines, hl, hproj, hmem⟩ := readLines_of_fresh st rid inp.ingredients hex
  have hlines : readIngredientLines (createRecipe st author rid inp) rid = lines := by
    simp only [readIngredientLines, createRecipe, List.filter_append, h3, h4,
      List.nil_append]
    exact hl
  refine ⟨htags, by rw [htags], ?_, ?_, ?_⟩
  · rw [hlines]; exact hproj
  · rw [hlines, ← hproj, List.length_map]
  · rw [hlines]; exact hmem

/-- A valid concrete recipe input used by several witnesses: one tag and
two ingredient lines over `scenarioState`. -/
def c2Input : RecipeInput := ⟨"New", "text", 5, [1], [(1, 10), (2, 20)]⟩

/-- Witness for C2: creating recipe 3 from `c2Input` over `scenarioState`
and reading it back returns the input tags and ingredient lines. -/
theorem C2_create_read_roundtrip_witness :
    readTagIds (createRecipe scenarioState 1 3 c2Input) 3 = c2Input.tags
    ∧ (readIngredientLines (createRecipe scenarioState 1 3 c2Input) 3).map
        (fun l => (l.1, l.2.2.2)) = c2Input.ingredients :=
  have h := C2_create_read_roundtrip 32000 32000 scenarioState 1 3 c2Input
    (by decide) (by decide) (by decide) (by decide)
  ⟨h.1, h.2.2.1⟩

/-- Claim C3: a second Update with the same valid payload leaves the
tag link set and ingredient-line set of the recipe exactly as after the first,
because Update replaces both sets wholesale. -/
theorem C3_update_idempotent (maxCooking maxAmount : Int) (st : State)
    (rid : Nat) (inp : RecipeInput)
    (hval : validateRecipeInput maxCooking maxAmount inp = true) :
    (runUpdate maxCooking maxAmount true
        (runUpdate maxCooking maxAmount true st rid inp).2 rid inp).2.recipeTags
      = (runUpdate maxCooking maxAmount true st rid inp).2.recipeTags
    ∧ (runUpdate maxCooking maxAmount true
        (runUpdate maxCooking maxAmount true st rid inp).2 rid inp).2.recipeIngredients
      = (runUpdate maxCooking maxAmount true st rid inp).2.recipeIngredients := by
  have hrun : ∀ s, (runUpdate maxCooking maxAmount true s rid inp).2
      = updateRecipe s rid inp := by
    intro s; simp [runUpdate, hval]
  simp only [hrun]
  constructor
  · have hF : (st.recipeTags.filter (fun p => p.1 != rid)).filter
        (fun p => p.1 != rid) = st.recipeTags.filter (fun p => p.1 != rid) :=
      List.filter_eq_self.2 (fun a ha => (List.mem_filter.1 ha).2)
    have hM : (inp.tags.dedup.map (fun t => (rid, t))).filter
        (fun p => p.1 != rid) = [] :=
      filter_ne_key_map_nil (fun p : Nat × Nat => p.1) (fun t => (rid, t)) rid
        inp.tags.dedup (fun _ => rfl)
    simp [updateRecipe, List.filter_append, hF, hM]
  · have hF : (st.recipeIngredients.filter (fun r => r.recipe != rid)).filter
        (fun r => r.recipe != rid)
        = st.recipeIngredients.filter (fun r => r.recipe != rid) :=
      List.filter_eq_self.2 (fun a ha => (List.mem_filter.1 ha).2)
    have hM : (inp.ingredients.map
          (fun p : Nat × Int => RecipeIngredientRow.mk rid p.1 p.2)).filter
        (fun r => r.recipe != rid) = [] :=
      filter_ne_key_map_nil (fun r : RecipeIngredientRow => r.recipe)
        (fun p : Nat × Int => RecipeIngredientRow.mk rid p.1 p.2) rid
        inp.ingredients (fun _ => rfl)
    simp [updateRecipe, List.filter_append, hF, hM]

/-- Witness for C3 at a concrete state and payload. -/
theorem C3_update_idempotent_witness :
    (runUpdate 32000 32000 true
        (runUpdate 32000 32000 true scenarioState 1 c2Input).2 1 c2Input).2.recipeTags
      = (runUpdate 32000 32000 true scenarioState 1 c2Input).2.recipeTags :=
  (C3_update_idempotent 32000 32000 scenarioState 1 c2Input (by decide)).1

/-- Claim C4: an empty tag list, a duplicated tag, an empty ingredient
list, a duplicated ingredient id, an amount ≤ 0 or above the configured
maximum, or a cooking time below 1 or above the configured maximum makes
both Create and Update fail with a validation error and leave the state
untouched. -/
theorem C4_invalid_input_rejected (maxCooking maxAmount : Int) (storageOk : Bool)
    (st : State) (author rid : Nat) (inp : RecipeInput)
    (hbad : inp.tags = [] ∨ ¬ inp.tags.Nodup ∨ inp.ingredients = []
      ∨ ¬ (inp.ingredients.map Prod.fst).Nodup
      ∨ (∃ p ∈ inp.ingredients, p.2 ≤ 0 ∨ maxAmount < p.2)
      ∨ inp.cooking_time < 1 ∨ maxCooking < inp.cooking_time) :
    runCreate maxCooking maxAmount storageOk st author rid inp
      = (.validationError, st)
    ∧ runUpdate maxCooking maxAmount storageOk st rid inp
      = (.validationError, st) := by
  have hv : ¬ validateRecipeInput maxCooking maxAmount inp = true := by
    rw [validateRecipeInput_iff]
    rintro ⟨h1, h2, h3, h4, h5, h6, h7⟩
    simp only [MIN_COOKING_TIME, MIN_INGREDIENT_AMOUNT] at h5 h6
    rcases hbad with hb | hb | hb | hb | ⟨p, hp, hbp⟩ | hb | hb
    · exact h1 hb
    · exact hb h2
    · exact h3 hb
    · exact hb h4
    · rcases h5 p hp with ⟨hlo, hhi⟩
      rcases hbp with hbp | hbp <;> omega
    · omega
    · omega
  constructor <;> simp [runCreate, runUpdate, hv]

/-- An invalid concrete input: its tag list is empty. -/
def c4BadInput : RecipeInput := ⟨"X", "Y", 5, [], [(1, 2)]⟩

/-- Witness for C4: the empty-tag input is rejected with no state change. -/
theorem C4_invalid_input_rejected_witness :
    runCreate 32000 32000 true scenarioState 1 3 c4BadInput
      = (.validationError, scenarioState) :=
  (C4_invalid_input_rejected 32000 32000 true scenarioState 1 3 c4BadInput
    (Or.inl rfl)).1

/-- Claim C5: validation runs in full before any mutation, so a failed
validation returns the state unchanged for both Create and Update (in
particular no ingredient line of an updated recipe is deleted), and a
transaction abort after validation also leaves the state exactly as it
was. -/
theorem C5_validate_before_mutate (maxCooking maxAmount : Int) (st : State)
    (author rid : Nat) (inp : RecipeInput) :
    (validateRecipeInput maxCooking maxAmount inp = false →
      ∀ storageOk : Bool,
        runUpdate maxCooking maxAmount storageOk st rid inp
          = (.validationError, st)
        ∧ runCreate maxCooking maxAmount storageOk st author rid inp
          = (.validationError, st))
    ∧ (runCreate maxCooking maxAmount false st author rid inp).2 = st
    ∧ (runUpdate maxCooking maxAmount false st rid inp).2 = st := by
  refine ⟨?_, ?_, ?_⟩
  · intro hv storageOk
    constructor <;> simp [runCreate, runUpdate, hv]
  · unfold runCreate; split <;> rfl
  · unfold runUpdate; split <;> rfl

/-- Witness for C5: an invalid update leaves `scenarioState` unchanged,
and an aborted create also returns the original state. -/
theorem C5_validate_before_mutate_witness :
    runUpdate 32000 32000 true scenarioState 1 c4BadInput
      = (.validationError, scenarioState)
    ∧ (runCreate 32000 32000 false scenarioState 1 3 c2Input).2 = scenarioState :=
  ⟨((C5_validate_before_mutate 32000 32000 scenarioState 1 1 c4BadInput).1
      (by decide) true).1,
   (C5_validate_before_mutate 32000 32000 scenarioState 1 3 c2Input).2.1⟩

/-! ## Relation toggles (favorite, shopping-cart entry, subscription) -/

/-- Error taxonomy of the spec for the toggle operations: the source
surfaces `Conflict` as the already-exists validation error of the add
serializers, `NotFoundError` as the zero-rows-deleted response of the
delete views, and `ValidationError` as the self-subscription rejection. -/
inductive RelError where
  | Conflict
  | NotFoundError
  | ValidationError
  deriving DecidableEq, Repr

/-- `Model.objects.filter(user=u, ...=t).exists()`. -/
def pairExists (l : List (Nat × Nat)) (u t : Nat) : Bool :=
  l.any (fun p => p.1 == u && p.2 == t)

/-- `Model.objects.filter(user=u, ...=t).delete()`: every matching row
goes away. -/
def removePair (l : List (Nat × Nat)) (u t : Nat) : List (Nat × Nat) :=
  l.filter (fun p => !(p.1 == u && p.2 == t))

/-- `FavoriteSerializer.validate` on POST plus `serializer.save()`:
reject an already-favorited pair, otherwise insert the row. -/
def addFavorite (u r : Nat) (st : State) : Except RelError State :=
  if pairExists st.favorites u r then .error .Conflict
  else .ok { st with favorites := st.favorites ++ [(u, r)] }

/-- `RecipeViewSet.deletion` applied to `FavoriteRecipe`: delete the
matching rows and fail when the deletion count is zero. -/
def removeFavorite (u r : Nat) (st : State) : Except RelError State :=
  if pairExists st.favorites u r then
    .ok { st with favorites := removePair st.favorites u r }
  else .error .NotFoundError

/-- `ShoppingCartSerializer.validate` on POST plus `serializer.save()`. -/
def addShoppingCart (u r : Nat) (st : State) : Except RelError State :=
  if pairExists st.shopping_cart u r then .error .Conflict
  else .ok { st with shopping_cart := st.shopping_cart ++ [(u, r)] }

/-- `RecipeViewSet.deletion` applied to `ShoppingCart`. -/
def removeShoppingCart (u r : Nat) (st : State) : Except RelError State :=
  if pairExists st.shopping_cart u r then
    .ok { st with shopping_cart := removePair st.shopping_cart u r }
  else .error .NotFoundError

/-- `SubscribeSerializer`: the `UniqueTogetherValidator` rejects an
existing (user, author) pair first, then `validate` rejects
self-subscription, then `save` inserts the row. -/
def addSubscribe (u a : Nat) (st : State) : Except RelError State :=
  if pairExists st.subscriptions u a then .error .Conflict
  else if u == a then .error .ValidationError
  else .ok { st with subscriptions := st.subscriptions ++ [(u, a)] }

/-- `UserViewSet.delete_subscribe`: delete the matching Subscribe rows,
fail when none were deleted. -/
def removeSubscribe (u a : Nat) (st : State) : Except RelError State :=
  if pairExists st.subscriptions u a then
    .ok { st with subscriptions := removePair st.subscriptions u a }
  else .error .NotFoundError

theorem pairExists_append_self (l : List (Nat × Nat)) (u t : Nat) :
    pairExists (l ++ [(u, t)]) u t = true := by
  simp [pairExists]

theorem pairExists_removePair (l : List (Nat × Nat)) (u t : Nat) :
    pairExists (removePair l u t) u t = false := by
  by_contra hcon
  rw [Bool.not_eq_false] at hcon
  simp only [pairExists, List.any_eq_true] at hcon
  obtain ⟨p, hp, hmatch⟩ := hcon
  have hf := (List.mem_filter.1 hp).2
  rw [hmatch] at hf
  simp at hf

/-- Claim C6: for each of the three relation kinds, Add of an existing
pair fails with Conflict, Remove of an absent pair fails with NotFound,
and after a successful Add one Remove succeeds while a second Remove of
the same pair fails with NotFound again. -/
theorem C6_toggle_add_remove (u t : Nat) (st : State) :
    (pairExists st.favorites u t = true →
        addFavorite u t st = .error .Conflict)
    ∧ (pairExists st.favorites u t = false →
        removeFavorite u t st = .error .NotFoundError)
    ∧ (pairExists st.favorites u t = false →
        ∃ st1 st2, addFavorite u t st = .ok st1
          ∧ removeFavorite u t st1 = .ok st2
          ∧ removeFavorite u t st2 = .error .NotFoundError)
    ∧ (pairExists st.shopping_cart u t = true →
        addShoppingCart u t st = .error .Conflict)
    ∧ (pairExists st.shopping_cart u t = false →
        removeShoppingCart u t st = .error .NotFoundError)
    ∧ (pairExists st.shopping_cart u t = false →
        ∃ st1 st2, addShoppingCart u t st = .ok st1
          ∧ removeShoppingCart u t st1 = .ok st2
          ∧ removeShoppingCart u t st2 = .error .NotFoundError)
    ∧ (pairExists st.subscriptions u t = true →
        addSubscribe u t st = .error .Conflict)
    ∧ (pairExists st.subscriptions u t = false →
        removeSubscribe u t st = .error .NotFoundError)
    ∧ (pairExists st.subscriptions u t = false → u ≠ t →
        ∃ st1 st2, addSubscribe u t st = .ok st1
          ∧ removeSubscribe u t st1 = .ok st2
          ∧ removeSubscribe u t st2 = .error .NotFoundError) := by
  refine ⟨?_, ?_, ?_, ?_, ?_, ?_, ?_, ?_, ?_⟩
  · intro h; simp [addFavorite, h]
  · intro h; simp [removeFavorite, h]
  · intro h
    refine ⟨{ st with favorites := st.favorites ++ [(u, t)] },
      { st with favorites := removePair (st.favorites ++ [(u, t)]) u t },
      ?_, ?_, ?_⟩
    · simp [addFavorite, h]
    · simp [removeFavorite, pairExists_append_self]
    · simp [removeFavorite, pairExists_removePair]
  · intro h; simp [addShoppingCart, h]
  · intro h; simp [removeShoppingCart, h]
  · intro h
    refine ⟨{ st with shopping_cart := st.shopping_cart ++ [(u, t)] },
      { st with shopping_cart := removePair (st.shopping_cart ++ [(u, t)]) u t },
      ?_, ?_, ?_⟩
    · simp [addShoppingCart, h]
    · simp [removeShoppingCart, pairExists_append_self]
    · simp [removeShoppingCart, pairExists_removePair]
  · intro h; simp [addSubscribe, h]
  · intro h; simp [removeSubscribe, h]
  · intro h hne
    refine ⟨{ st with subscriptions := st.subscriptions ++ [(u, t)] },
      { st with subscriptions := removePair (st.subscriptions ++ [(u, t)]) u t },
      ?_, ?_, ?_⟩
    · simp [addSubscribe, h, hne]
    · simp [removeSubscribe, pairExists_append_self]
    · simp [removeSubscribe, pairExists_removePair]

/-- Witness for C6 at concrete pairs over `scenarioState`: recipe 1 is
already in the cart of user 7; user 2 has no favorite and no subscription. -/
theorem C6_toggle_add_remove_witness :
    addShoppingCart 7 1 scenarioState = .error .Conflict
    ∧ removeFavorite 2 1 scenarioState = .error .NotFoundError
    ∧ (∃ st1 st2, addSubscribe 2 1 scenarioState = .ok st1
        ∧ removeSubscribe 2 1 st1 = .ok st2
        ∧ removeSubscribe 2 1 st2 = .error .NotFoundError) :=
  ⟨(C6_toggle_add_remove 7 1 scenarioState).2.2.2.1 rfl,
   (C6_toggle_add_remove 2 1 scenarioState).2.1 rfl,
   (C6_toggle_add_remove 2 1 scenarioState).2.2.2.2.2.2.2.2 rfl (by decide)⟩

/-- `Subscribe.Meta` check constraint `user_cannot_follow_himself`
(`~Q(user=F(author))`): a row passes iff user and author differ. -/
def subscribeCheck (user author : Nat) : Bool := user != author

/-- Claim C7: self-subscription is rejected with a validation error and
no Subscription row is inserted; the storage check constraint rejects a
self-pair as well, and every successful add preserves the no-self-pair
invariant. -/
theorem C7_no_self_subscribe (u : Nat) (st : State)
    (hinv : ∀ p ∈ st.subscriptions, p.1 ≠ p.2) :
    addSubscribe u u st = .error .ValidationError
    ∧ subscribeCheck u u = false
    ∧ ∀ v a st2, addSubscribe v a st = .ok st2 →
        ∀ p ∈ st2.subscriptions, p.1 ≠ p.2 := by
  have hne : pairExists st.subscriptions u u = false := by
    by_contra hcon
    rw [Bool.not_eq_false] at hcon
    simp only [pairExists, List.any_eq_true, Bool.and_eq_true, beq_iff_eq] at hcon
    obtain ⟨p, hp, h1, h2⟩ := hcon
    exact hinv p hp (h1.trans h2.symm)
  refine ⟨by simp [addSubscribe, hne], by simp [subscribeCheck], ?_⟩
  intro v a st2 hok
  unfold addSubscribe at hok
  by_cases h1 : pairExists st.subscriptions v a = true
  · rw [if_pos h1] at hok
    exact Except.noConfusion hok
  · rw [if_neg h1] at hok
    by_cases h2 : (v == a) = true
    · rw [if_pos h2] at hok
      exact Except.noConfusion hok
    · rw [if_neg h2] at hok
      have hst2 : { st with subscriptions := st.subscriptions ++ [(v, a)] } = st2 := by
        injection hok
      subst hst2
      intro p hp
      rcases List.mem_append.1 hp with hp | hp
      · exact hinv p hp
      · rw [List.mem_singleton] at hp
        subst hp
        simpa using h2

/-- Witness for C7: user 4 cannot subscribe to user 4 over
`scenarioState` (whose subscription table is empty). -/
theorem C7_no_self_subscribe_witness :
    addSubscribe 4 4 scenarioState = .error .ValidationError
    ∧ subscribeCheck 4 4 = false :=
  have h := C7_no_self_subscribe 4 scenarioState (by decide)
  ⟨h.1, h.2.1⟩

/-! ## Read-side flags (`RecipeReadSerializer`) -/

/-- The request reaching the serializer context: whether the requester is
authenticated, and who they are. `none` models a serializer used with no
request in its context. -/
structure RequestCtx where
  authenticated : Bool
  userId : Nat
  deriving DecidableEq, Repr

/-- `RecipeReadSerializer.get_is_favorited`:
`request is not None and (request.user.is_authenticated and
request.user.favorites.filter(recipe=obj).exists())`. Total by
construction — no error path exists. -/
def get_is_favorited (ctx : Option RequestCtx) (st : State) (rid : Nat) : Bool :=
  match ctx with
  | none => false
  | some c => c.authenticated && pairExists st.favorites c.userId rid

/-- `RecipeReadSerializer.get_is_in_shopping_cart`, same shape over the
shopping-cart table. -/
def get_is_in_shopping_cart (ctx : Option RequestCtx) (st : State) (rid : Nat) :
    Bool :=
  match ctx with
  | none => false
  | some c => c.authenticated && pairExists st.shopping_cart c.userId rid

/-- Claim C9: with no request context or an unauthenticated requester,
both read-side flags are false for every recipe, and their evaluation is
a total Boolean computation (no error is ever raised). -/
theorem C9_anonymous_flags_false (ctx : Option RequestCtx) (st : State) (rid : Nat)
    (h : ctx = none ∨ ∃ c, ctx = some c ∧ c.authenticated = false) :
    get_is_favorited ctx st rid = false
    ∧ get_is_in_shopping_cart ctx st rid = false := by
  rcases h with rfl | ⟨c, rfl, hc⟩
  · exact ⟨rfl, rfl⟩
  · simp [get_is_favorited, get_is_in_shopping_cart, hc]

/-- Witness for C9: no request context, and an unauthenticated request. -/
theorem C9_anonymous_flags_false_witness :
    get_is_favorited none scenarioState 1 = false
    ∧ get_is_in_shopping_cart (some ⟨false, 7⟩) scenarioState 1 = false :=
  ⟨(C9_anonymous_flags_false none scenarioState 1 (Or.inl rfl)).1,
   (C9_anonymous_flags_false (some ⟨false, 7⟩) scenarioState 1
      (Or.inr ⟨⟨false, 7⟩, rfl, rfl⟩)).2⟩

/-! ## Shopping-list rendering (`download_shopping_cart`, formatting part) -/

/-- Zero-padded two-digit component of the date format. -/
def pad2 (n : Nat) : String := if n < 10 then "0" ++ toString n else toString n

/-- The Python date format `%Y-%m-%d` used by the view. -/
def formatDate (y m d : Nat) : String :=
  toString y ++ "-" ++ pad2 m ++ "-" ++ pad2 d

/-- One item line as built in the view:
`- NAME(UNIT) - AMOUNT` — no space between the ingredient
name and the opening parenthesis. -/
def itemLine (it : (String × String) × Int) : String :=
  "- " ++ it.1.1 ++ "(" ++ it.1.2 ++ ")" ++ " - " ++ toString it.2

/-- The newline join of the item lines, as the view performs it. -/
def joinLines : List String → String
  | [] => ""
  | [a] => a
  | a :: b :: rest => a ++ "\n" ++ joinLines (b :: rest)

/-- The full document built by `download_shopping_cart`: the two header
f-strings, the joined item lines, and the footer f-string. -/
def renderShoppingList (fullName : String) (y m d : Nat)
    (items : List ((String × String) × Int)) : String :=
  "Список покупок для: " ++ fullName ++ "\n\n"
    ++ "Дата: " ++ formatDate y m d ++ "\n\n"
    ++ joinLines (items.map itemLine)
    ++ "\n\n" ++ "Foodgram (" ++ toString y ++ ")"

/-- The item line in the exact form claim C8 states:
`- NAME (UNIT) - TOTAL`, with a space before the parenthesis. -/
def itemLineClaimed (it : (String × String) × Int) : String :=
  "- " ++ it.1.1 ++ " (" ++ it.1.2 ++ ") - " ++ toString it.2

/-- The renderer claim C8 describes: identical header and footer, but
each item line in the claimed spaced form. -/
def renderShoppingListClaimed (fullName : String) (y m d : Nat)
    (items : List ((String × String) × Int)) : String :=
  "Список покупок для: " ++ fullName ++ "\n\n"
    ++ "Дата: " ++ formatDate y m d ++ "\n\n"
    ++ joinLines (items.map itemLineClaimed)
    ++ "\n\n" ++ "Foodgram (" ++ toString y ++ ")"

/-- Modelled from the amended claim: one line per item of the exact form
`- NAME(UNIT) - TOTAL`, no space before the parenthesis. -/
def itemLineAmended (it : (String × String) × Int) : String :=
  "- " ++ it.1.1 ++ "(" ++ it.1.2 ++ ") - " ++ toString it.2

/-- Modelled from the amended claim: the document as a line list — the
header line naming the full name of the user, a blank, the date line
(YYYY-MM-DD), a blank, one line per item, a blank, and the footer naming
the product and the generation year. -/
def renderAmendedLines (fullName : String) (y m d : Nat)
    (items : List ((String × String) × Int)) : List String :=
  ["Список покупок для: " ++ fullName, "", "Дата: " ++ formatDate y m d, ""]
    ++ items.map itemLineAmended
    ++ ["", "Foodgram (" ++ toString y ++ ")"]

theorem joinLines_cons_cons (a b : String) (l : List String) :
    joinLines (a :: b :: l) = a ++ "\n" ++ joinLines (b :: l) := rfl

theorem joinLines_append (l1 l2 : List String) (h1 : l1 ≠ []) (h2 : l2 ≠ []) :
    joinLines (l1 ++ l2) = joinLines l1 ++ "\n" ++ joinLines l2 := by
  induction l1 with
  | nil => exact absurd rfl h1
  | cons a rest ih =>
      cases rest with
      | nil =>
          cases l2 with
          | nil => exact absurd rfl h2
          | cons b bs => simp [joinLines]
      | cons c cs =>
          have hih := ih (by simp)
          calc joinLines ((a :: c :: cs) ++ l2)
              = a ++ "\n" ++ joinLines ((c :: cs) ++ l2) :=
                joinLines_cons_cons a c (cs ++ l2)
            _ = a ++ "\n" ++ (joinLines (c :: cs) ++ "\n" ++ joinLines l2) := by
                rw [hih]
            _ = (a ++ "\n" ++ joinLines (c :: cs)) ++ "\n" ++ joinLines l2 := by
                simp [String.append_assoc]
            _ = joinLines (a :: c :: cs) ++ "\n" ++ joinLines l2 := by
                rw [joinLines_cons_cons]

theorem itemLine_eq_amended (it : (String × String) × Int) :
    itemLine it = itemLineAmended it := by
  obtain ⟨⟨n, u⟩, a⟩ := it
  show "- " ++ n ++ "(" ++ u ++ ")" ++ " - " ++ toString a
      = "- " ++ n ++ "(" ++ u ++ ") - " ++ toString a
  rw [show (") - " : String) = ")" ++ " - " from rfl]
  simp [String.append_assoc]

/-- Claim C8 fails as stated: the code writes no space between the
ingredient name and the unit parenthesis, so at this concrete cart the
rendered document differs from the one of the claimed item-line form. -/
theorem C8_item_line_counterexample :
    renderShoppingList "Ivan Petrov" 2024 1 2 [(("Flour", "g"), 500)]
      ≠ renderShoppingListClaimed "Ivan Petrov" 2024 1 2 [(("Flour", "g"), 500)] := by
  decide

/-- Claim C8 (amended): for a non-empty item list, the rendered document
is exactly the newline-join of the header line naming the full name of
the user, a blank line, the line carrying the generation date in UTC as
YYYY-MM-DD (the date reaches the renderer as the y/m/d parameters; its
provenance is outside the embedding), a blank line, one line per item of
the exact form `- NAME(UNIT) - TOTAL` (no space before the parenthesis —
the sole change from the claim as stated), a blank line, and the footer
naming the product and the generation year. -/
theorem C8_render_structure (fullName : String) (y m d : Nat)
    (items : List ((String × String) × Int)) (h : items ≠ []) :
    renderShoppingList fullName y m d items
      = joinLines (renderAmendedLines fullName y m d items) := by
  obtain ⟨it0, rest, rfl⟩ : ∃ it0 rest, items = it0 :: rest := by
    cases items with
    | nil => exact absurd rfl h
    | cons a l => exact ⟨a, l, rfl⟩
  unfold renderAmendedLines
  rw [joinLines_append
      (["Список покупок для: " ++ fullName, "",
        "Дата: " ++ formatDate y m d, ""] ++ (it0 :: rest).map itemLineAmended)
      ["", "Foodgram (" ++ toString y ++ ")"] (by simp) (by simp),
    joinLines_append
      ["Список покупок для: " ++ fullName, "", "Дата: " ++ formatDate y m d, ""]
      ((it0 :: rest).map itemLineAmended) (by simp) (by simp)]
  have hmap : itemLineAmended = itemLine :=
    funext fun it => (itemLine_eq_amended it).symm
  rw [hmap]
  simp only [renderShoppingList, joinLines]
  rw [show ("\n\n" : String) = "\n" ++ "\n" from rfl]
  simp only [String.append_assoc, String.append_empty, String.empty_append]

/-- Witness for the amended C8 at a concrete non-empty cart. -/
theorem C8_render_structure_witness :
    renderShoppingList "Ivan Petrov" 2024 3 5 [(("Flour", "g"), 500)]
      = joinLines (renderAmendedLines "Ivan Petrov" 2024 3 5
          [(("Flour", "g"), 500)]) :=
  C8_render_structure "Ivan Petrov" 2024 3 5 [(("Flour", "g"), 500)] (by decide)

end Foodgram
